import Mathlib

/-!
Verification of the producer/consumer example clients of this repository:
`messenger/examples/python/getting-started/producer.py` (batch producer with
stream/topic provisioning) and `third_party/iggy/examples/python/basic/consumer.py`
(polling consumer with offset tracking).

The embedding models the two loops as state-transition functions driven by an
environment oracle: for the producer, a function `ok : Nat → Bool` giving the
success of the i-th `send_messages` call; for the consumer, a function
`polls : Nat → PollResult` giving the outcome of the i-th `poll_messages` call
(an exception or a list of message payloads).  Broker-side behaviour
(stream/topic registry, the partition log) is external to the repository and is
modelled from the spec where a claim needs it.
-/

/-- Module-level constant `STREAM_NAME` of both examples. -/
def STREAM_NAME : String := "sample-stream"

/-- Module-level constant `TOPIC_NAME` of both examples. -/
def TOPIC_NAME : String := "sample-topic"

/-- Module-level constant `STREAM_ID` of both examples. -/
def STREAM_ID : Nat := 1

/-- Module-level constant `PARTITION_ID` of both examples. -/
def PARTITION_ID : Nat := 1

/-- Module-level constant `BATCHES_LIMIT` (both examples set it to 5). -/
def BATCHES_LIMIT : Nat := 5

/-- The local `messages_per_batch = 10` of both loops. -/
def messages_per_batch : Nat := 10

/-- The pacing interval: `interval = 0.5` seconds, i.e. 500 ms, in both loops. -/
def intervalMs : Nat := 500

/-- The payload string built for a logical identifier:
`payload = f"message-{current_id}"`. -/
def payloadOf (id : Nat) : String := "message-" ++ toString id

/-- The batch-construction loop of `produce_messages`:
`for _ in range(b): current_id += 1; messages.append(Message(f"message-{current_id}"))`.
Given the remaining count and the running `current_id`, returns the payload
list in append order together with the final `current_id`. -/
def buildBatch : Nat → Nat → List String × Nat
  | 0, c => ([], c)
  | Nat.succ k, c =>
    let p := payloadOf (c + 1)
    let r := buildBatch k (c + 1)
    (p :: r.1, r.2)

/-- Mutable state of `produce_messages` across loop iterations:
`current_id` and `n_sent_batches`. -/
structure PState where
  currentId : Nat
  nSentBatches : Nat
  deriving Repr, DecidableEq

/-- Initial producer state: `current_id = 0`, `n_sent_batches = 0`. -/
def pInit : PState := ⟨0, 0⟩

/-- One iteration of the `while n_sent_batches < BATCHES_LIMIT` body of
`produce_messages`, with batch size `b`, given whether the `send_messages`
call succeeds (`ok = true`) or raises (`ok = false`).  The batch is always
constructed (advancing `current_id` by `b`); `n_sent_batches` is incremented
only on success — the `except` branch merely logs. -/
def producerIter (b : Nat) (s : PState) (ok : Bool) : PState :=
  let r := buildBatch b s.currentId
  { currentId := r.2
    nSentBatches := s.nSentBatches + if ok then 1 else 0 }

/-- Producer state before the i-th loop iteration (0-indexed), under the
send-success oracle `ok`. -/
def pStateBefore (b : Nat) (ok : Nat → Bool) : Nat → PState
  | 0 => pInit
  | i + 1 => producerIter b (pStateBefore b ok i) (ok i)

/-- The i-th iteration of the producer loop executes (hence the i-th
`send_messages` call is issued) exactly when the guard
`n_sent_batches < BATCHES_LIMIT` (generalised to `n`) holds before it;
`n_sent_batches` is non-decreasing, so the guard holding before iteration i
means it held before every earlier iteration as well. -/
def sendOccurs (b n : Nat) (ok : Nat → Bool) (i : Nat) : Prop :=
  (pStateBefore b ok i).nSentBatches < n

instance (b n : Nat) (ok : Nat → Bool) (i : Nat) : Decidable (sendOccurs b n ok i) :=
  inferInstanceAs (Decidable (_ < _))

/-- The payload list passed to the i-th `send_messages` call. -/
def batchOf (b : Nat) (ok : Nat → Bool) (i : Nat) : List String :=
  (buildBatch b (pStateBefore b ok i).currentId).1

/-- The logical identifiers embedded in the payloads of the i-th send call. -/
def batchIdsOf (b : Nat) (ok : Nat → Bool) (i : Nat) : List Nat :=
  (List.range b).map (fun j => (pStateBefore b ok i).currentId + j + 1)

-- Basic facts about batch construction.

theorem buildBatch_snd (b c : Nat) : (buildBatch b c).2 = c + b := by
  induction b generalizing c with
  | zero => rfl
  | succ k ih => simp [buildBatch, ih (c + 1)]; omega

theorem buildBatch_fst (b c : Nat) :
    (buildBatch b c).1 = (List.range b).map (fun j => payloadOf (c + j + 1)) := by
  induction b generalizing c with
  | zero => rfl
  | succ k ih =>
    simp [buildBatch, ih (c + 1), List.range_succ_eq_map, List.map_map]
    intro a _
    congr 1
    omega

theorem buildBatch_length (b c : Nat) : (buildBatch b c).1.length = b := by
  rw [buildBatch_fst]; simp

/-- After i iterations, `current_id = b * i`, whatever the send outcomes were:
the identifier counter advances by the batch size on success and failure
alike. -/
theorem pStateBefore_currentId (b : Nat) (ok : Nat → Bool) (i : Nat) :
    (pStateBefore b ok i).currentId = b * i := by
  induction i with
  | zero => rfl
  | succ k ih =>
    simp [pStateBefore, producerIter, buildBatch_snd, ih]
    ring

/-- Count of successes among the first i send calls. -/
def succCount (ok : Nat → Bool) : Nat → Nat
  | 0 => 0
  | i + 1 => succCount ok i + if ok i then 1 else 0

theorem pStateBefore_nSent (b : Nat) (ok : Nat → Bool) (i : Nat) :
    (pStateBefore b ok i).nSentBatches = succCount ok i := by
  induction i with
  | zero => rfl
  | succ k ih => simp [pStateBefore, producerIter, succCount, ih]

theorem succCount_all_true (ok : Nat → Bool) (h : ∀ i, ok i = true) (i : Nat) :
    succCount ok i = i := by
  induction i with
  | zero => rfl
  | succ k ih => simp [succCount, h k, ih]

theorem batchOf_eq (b : Nat) (ok : Nat → Bool) (i : Nat) :
    batchOf b ok i = (List.range b).map (fun j => payloadOf (b * i + j + 1)) := by
  simp [batchOf, buildBatch_fst, pStateBefore_currentId]

theorem batchIdsOf_eq (b : Nat) (ok : Nat → Bool) (i : Nat) :
    batchIdsOf b ok i = (List.range b).map (fun j => b * i + j + 1) := by
  simp [batchIdsOf, pStateBefore_currentId]

/-! ## Consumer: `consume_messages` of the basic consumer example -/

/-- Outcome of one `client.poll_messages(...)` call: either the call raises an
exception, or it returns an ordered sequence of message payloads (possibly
empty).  `auto_commit=True` is hardcoded in the example. -/
inductive PollResult where
  | err : PollResult
  | ok : List String → PollResult
  deriving Repr, DecidableEq

/-- Mutable state of `consume_messages` across loop iterations:
`offset` (the consumer's cursor) and `n_consumed_batches`. -/
structure CState where
  offset : Nat
  nConsumedBatches : Nat
  deriving Repr, DecidableEq

/-- Initial consumer state: `offset = 0`, `n_consumed_batches = 0`. -/
def cInit : CState := ⟨0, 0⟩

/-- One iteration of the `while n_consumed_batches < BATCHES_LIMIT` body of
`consume_messages`: returns the next state and whether the loop continues.
An exception logs and breaks; an empty poll logs, sleeps and continues without
touching the state; a non-empty poll advances `offset` by the returned count,
handles every message, increments `n_consumed_batches` and sleeps. -/
def consumerIter (s : CState) : PollResult → CState × Bool
  | PollResult.err => (s, false)
  | PollResult.ok [] => (s, true)
  | PollResult.ok (m :: ms) =>
    ({ offset := s.offset + (m :: ms).length
       nConsumedBatches := s.nConsumedBatches + 1 }, true)

/-- Consumer state before the i-th loop iteration (0-indexed), under the poll
oracle `polls`.  The fold applies `consumerIter` unconditionally; whenever the
i-th iteration really executes (`pollOccurs`), this coincides with the state
the running program holds. -/
def cStateBefore (polls : Nat → PollResult) : Nat → CState
  | 0 => cInit
  | i + 1 => (consumerIter (cStateBefore polls i) (polls i)).1

/-- The i-th `poll_messages` call is issued exactly when the loop guard
`n_consumed_batches < BATCHES_LIMIT` holds before iteration i and no earlier
poll raised (an exception breaks out of the loop permanently).
`n_consumed_batches` is non-decreasing, so the guard holding at i subsumes it
holding earlier. -/
def pollOccurs (polls : Nat → PollResult) (i : Nat) : Prop :=
  (cStateBefore polls i).nConsumedBatches < BATCHES_LIMIT ∧
    ∀ j, j < i → polls j ≠ PollResult.err

instance (polls : Nat → PollResult) (i : Nat) : Decidable (pollOccurs polls i) :=
  inferInstanceAs (Decidable (_ ∧ _))

/-- Count of non-empty successful polls among the first i poll calls. -/
def nonemptyPollCount (polls : Nat → PollResult) : Nat → Nat
  | 0 => 0
  | i + 1 =>
    nonemptyPollCount polls i +
      match polls i with
      | PollResult.ok (_ :: _) => 1
      | _ => 0

theorem cStateBefore_nConsumed (polls : Nat → PollResult) (i : Nat) :
    (cStateBefore polls i).nConsumedBatches = nonemptyPollCount polls i := by
  induction i with
  | zero => rfl
  | succ k ih =>
    simp only [cStateBefore, nonemptyPollCount, ← ih]
    cases hk : polls k with
    | err => simp [consumerIter]
    | ok ms => cases ms with
      | nil => simp [consumerIter]
      | cons m t => simp [consumerIter]

theorem cState_nConsumed_mono (polls : Nat → PollResult) (i j : Nat) (h : i ≤ j) :
    (cStateBefore polls i).nConsumedBatches ≤ (cStateBefore polls j).nConsumedBatches := by
  induction j with
  | zero => simp_all
  | succ k ih =>
    rcases Nat.lt_or_ge i (k + 1) with hlt | hge
    · have hik : i ≤ k := Nat.lt_succ_iff.mp hlt
      refine le_trans (ih hik) ?_
      simp only [cStateBefore]
      cases hk : polls k with
      | err => simp [consumerIter]
      | ok ms => cases ms with
        | nil => simp [consumerIter]
        | cons m t => simp [consumerIter]
    · have : i = k + 1 := le_antisymm h hge
      simp [this]

/-! ## Observable events of one loop iteration (for pacing and ordering) -/

/-- Producer-side observable events of one loop iteration. -/
inductive PEvent where
  | send : List String → PEvent
  | sleep : Nat → PEvent
  deriving Repr, DecidableEq

/-- The event trace of one iteration of `produce_messages` starting from state
`s` (log lines elided).  The `send_messages` attempt carries the whole batch in
one call; `await asyncio.sleep(interval)` then runs regardless of whether the
attempt succeeded or raised — both the `try` success path and the `except`
path fall through to the same sleep. -/
def producerIterEvents (b : Nat) (s : PState) : List PEvent :=
  [PEvent.send (buildBatch b s.currentId).1, PEvent.sleep intervalMs]

/-- Consumer-side observable events of one loop iteration. -/
inductive CEvent where
  | pollReq : CEvent
  | handle : String → CEvent
  | sleep : Nat → CEvent
  deriving Repr, DecidableEq

/-- The event trace of one iteration of `consume_messages` for a given poll
result (log lines elided).  On an exception the loop breaks immediately — no
sleep; on an empty result it sleeps and continues; on a non-empty result it
handles every message in the order of the returned sequence, then sleeps. -/
def consumerIterEvents : PollResult → List CEvent
  | PollResult.err => [CEvent.pollReq]
  | PollResult.ok [] => [CEvent.pollReq, CEvent.sleep intervalMs]
  | PollResult.ok (m :: ms) =>
    CEvent.pollReq :: ((m :: ms).map CEvent.handle ++ [CEvent.sleep intervalMs])

/-! ## Broker-side topology and partition log, modelled from the spec -/

/-- Modelled from the spec: the broker stream registry behind
`client.get_stream` / `client.create_stream` (the `MessengerClient` connector
is an external collaborator, not part of this repository).  A registry is the
list of `(name, id)` pairs in creation order; `getStream` "looks up a stream
by name". -/
def getStream : List (String × Nat) → String → Option Nat
  | [], _ => none
  | (n, i) :: rest, name => if n = name then some i else getStream rest name

/-- Modelled from the spec: `createStream(name, id)` registers a new stream
with the given id. -/
def createStream (reg : List (String × Nat)) (name : String) (id : Nat) :
    List (String × Nat) :=
  reg ++ [(name, id)]

/-- Outcome reported by one run of the stream-provisioning block. -/
inductive EnsureOutcome where
  | created : EnsureOutcome
  | alreadyExists : EnsureOutcome
  deriving Repr, DecidableEq

/-- The stream block of `init_system` (the `ensureStream` contract), run
against a reliable broker: `stream = await client.get_stream(STREAM_NAME)`;
if `None`, `create_stream(name, stream_id)` and report creation; otherwise
leave the registry untouched and warn that the stream already exists. -/
def ensure_stream (reg : List (String × Nat)) (name : String) (id : Nat) :
    List (String × Nat) × EnsureOutcome :=
  match getStream reg name with
  | none => (createStream reg name id, EnsureOutcome.created)
  | some _ => (reg, EnsureOutcome.alreadyExists)

/-- Modelled from the spec: one partition of a topic is "an ordered,
append-only sequence of messages"; a produce call appends the whole batch. -/
def sendToPartition (log : List String) (batch : List String) : List String :=
  log ++ batch

/-- Modelled from the spec: `pollNext` "requests up to maxCount unread
messages starting at the current cursor", returned in partition order. -/
def pollFromPartition (log : List String) (off count : Nat) : List String :=
  (log.drop off).take count

/-- The payload strings extracted, in order, from the handling events of an
iteration trace: the order in which `handle_message` is invoked. -/
def handledPayloads (evs : List CEvent) : List String :=
  evs.filterMap (fun e =>
    match e with
    | CEvent.handle p => some p
    | _ => none)

/-! ## Environments and helper lemmas used by the claim theorems -/

/-- A send-success oracle under which only the first send attempt raises and
every later one succeeds. -/
def okFailFirst : Nat → Bool := fun i => decide (0 < i)

/-- Result of the broker lookup performed inside an `init_system` block. -/
inductive Lookup where
  | found : Lookup
  | absent : Lookup
  | raised : Lookup
  deriving Repr, DecidableEq

/-- Broker/transport behaviour seen by one run of `init_system`: the outcome
of each `get_stream` / `get_topic` lookup and whether the corresponding
create call (issued only on `absent`) succeeds. -/
structure InitEnv where
  getStreamResult : Lookup
  createStreamOk : Bool
  getTopicResult : Lookup
  createTopicOk : Bool
  deriving Repr, DecidableEq

/-- Body of the stream try-block of `init_system`:
`get_stream`, then `create_stream` if the lookup returned `None`; an
`Except.error` is an exception escaping the block. -/
def streamBlockBody (e : InitEnv) : Except Unit Unit :=
  match e.getStreamResult with
  | Lookup.raised => Except.error ()
  | Lookup.found => Except.ok ()
  | Lookup.absent => if e.createStreamOk then Except.ok () else Except.error ()

/-- Body of the topic try-block of `init_system`: `get_topic`, then
`create_topic` if the lookup returned `None`. -/
def topicBlockBody (e : InitEnv) : Except Unit Unit :=
  match e.getTopicResult with
  | Lookup.raised => Except.error ()
  | Lookup.found => Except.ok ()
  | Lookup.absent => if e.createTopicOk then Except.ok () else Except.error ()

/-- The `except Exception as error: logger.error(...)` wrapper of each block:
the exception is caught and logged, never re-raised. -/
def caughtAndLogged : Except Unit Unit → Bool
  | Except.error _ => true
  | Except.ok _ => false

/-- Which errors `init_system` logged.  Both blocks are wrapped in
`try/except` that swallows the exception, so `init_system` always returns
normally. -/
structure InitOutcome where
  streamErrorLogged : Bool
  topicErrorLogged : Bool
  deriving Repr, DecidableEq

/-- `init_system`: the stream block then the topic block, each catching and
logging its own exceptions. -/
def init_system (e : InitEnv) : InitOutcome :=
  { streamErrorLogged := caughtAndLogged (streamBlockBody e)
    topicErrorLogged := caughtAndLogged (topicBlockBody e) }

/-- The phases `main` runs after login. -/
inductive MainPhase where
  | initPhase : InitOutcome → MainPhase
  | producePhase : MainPhase
  deriving Repr, DecidableEq

/-- The tail of `main`: `await init_system(client)` followed by
`await produce_messages(client)`.  Since `init_system` is total (it catches
every exception it can raise internally), the produce phase is always
reached. -/
def mainPhases (e : InitEnv) : List MainPhase :=
  [MainPhase.initPhase (init_system e), MainPhase.producePhase]

/-- The producer loop starts in the run of `main` under environment `e`. -/
def produceStarts (e : InitEnv) : Prop :=
  MainPhase.producePhase ∈ mainPhases e

instance (e : InitEnv) : Decidable (produceStarts e) :=
  inferInstanceAs (Decidable (_ ∈ _))

/-- An environment where `get_stream` raises a transport error and everything
else behaves. -/
def envStreamRaise : InitEnv :=
  { getStreamResult := Lookup.raised
    createStreamOk := true
    getTopicResult := Lookup.found
    createTopicOk := true }

theorem getStream_append_self (reg : List (String × Nat)) (name : String) (id : Nat)
    (h : getStream reg name = none) :
    getStream (reg ++ [(name, id)]) name = some id := by
  induction reg with
  | nil => simp [getStream]
  | cons hd tl ih =>
    obtain ⟨n, i⟩ := hd
    by_cases hn : n = name
    · simp [getStream, hn] at h
    · simp only [getStream, List.cons_append, if_neg hn] at h ⊢
      exact ih h

theorem consumerIterEvents_ok (ms : List String) :
    consumerIterEvents (PollResult.ok ms)
      = CEvent.pollReq :: (ms.map CEvent.handle ++ [CEvent.sleep intervalMs]) := by
  cases ms <;> rfl

theorem handledPayloads_ok (ms : List String) :
    handledPayloads (consumerIterEvents (PollResult.ok ms)) = ms := by
  rw [consumerIterEvents_ok]
  simp only [handledPayloads, List.filterMap_cons, List.filterMap_append,
    List.filterMap_map]
  rw [show ((fun e =>
      match e with
      | CEvent.handle p => some p
      | _ => none) ∘ CEvent.handle) = some from rfl]
  simp

/-! ## Claim theorems -/

/-- C1 (counterexample): as stated, the claim that `produce_messages` issues
exactly `BATCHES_LIMIT` send calls fails on the code once a send can raise:
the guard `while n_sent_batches < BATCHES_LIMIT` counts only successful sends,
so with the concrete oracle `okFailFirst` (first send raises, the rest
succeed) a sixth send call is issued (`sendOccurs` at index 5). -/
theorem produce_exactly_n_sends_cex :
    ¬ (∀ ok : Nat → Bool, ∀ i,
        sendOccurs messages_per_batch BATCHES_LIMIT ok i → i < BATCHES_LIMIT) :=
  fun h => absurd (h okFailFirst 5 (by decide)) (by decide)

/-- C1 (amended): in a run where every `send_messages` call succeeds, the
producer loop issues exactly `n` send calls (the i-th send occurs iff
`i < n`), each carrying exactly `b` messages, and the i-th call (0-indexed)
carries the payloads `"message-<b*i+1>" .. "message-<b*(i+1)>"`, so
identifiers are strictly increasing across the whole run.  In general the
loop issues one send call per iteration until `n` sends have succeeded. -/
theorem produce_messages_success_run (b n : Nat) (ok : Nat → Bool)
    (hok : ∀ i, ok i = true) :
    (∀ i, sendOccurs b n ok i ↔ i < n) ∧
    (∀ i, (batchOf b ok i).length = b) ∧
    (∀ i, batchOf b ok i = (List.range b).map (fun j => payloadOf (b * i + j + 1))) := by
  refine ⟨?_, ?_, ?_⟩
  · intro i
    simp [sendOccurs, pStateBefore_nSent, succCount_all_true ok hok]
  · intro i
    simp [batchOf, buildBatch_length]
  · intro i
    exact batchOf_eq b ok i

/-- C1 (witness): instantiation at the code's configuration `b = 10`,
`n = BATCHES_LIMIT = 5` with the always-successful oracle: the 5th send call
(index 4) occurs, and the second call (index 1) carries
`"message-11" .. "message-20"`. -/
theorem produce_messages_success_run_witness :
    sendOccurs 10 5 (fun _ => true) 4 ∧
      batchOf 10 (fun _ => true) 1
        = (List.range 10).map (fun j => payloadOf (10 * 1 + j + 1)) :=
  ⟨((produce_messages_success_run 10 5 (fun _ => true) (fun _ => rfl)).1 4).mpr
      (by decide),
    (produce_messages_success_run 10 5 (fun _ => true) (fun _ => rfl)).2.2 1⟩

/-- C4: if the i-th send call raises (`ok i = false`) and that call was
issued, then the next iteration is still executed (its send call occurs), the
failed batch is not retried, and the next call carries exactly the payloads
`"message-<b*(i+1)+1>" .. "message-<b*(i+2)>"` — the same identifiers it
would have carried had the failed send succeeded, since the batch contents of
every iteration are independent of the success oracle. -/
theorem produce_failure_isolation (b n : Nat) (ok : Nat → Bool) (i : Nat)
    (hfail : ok i = false) (hocc : sendOccurs b n ok i) :
    sendOccurs b n ok (i + 1) ∧
    batchOf b ok (i + 1)
      = (List.range b).map (fun j => payloadOf (b * (i + 1) + j + 1)) ∧
    (∀ ok2 : Nat → Bool, batchOf b ok2 (i + 1) = batchOf b ok (i + 1)) := by
  refine ⟨?_, batchOf_eq b ok (i + 1), ?_⟩
  · simp only [sendOccurs, pStateBefore, producerIter, hfail] at hocc ⊢
    simpa using hocc
  · intro ok2
    rw [batchOf_eq, batchOf_eq]

/-- C4 (witness): with the oracle `okFailFirst` (send 0 raises), send call 1
still occurs and carries `"message-11" .. "message-20"`. -/
theorem produce_failure_isolation_witness :
    sendOccurs 10 5 okFailFirst 1 ∧
      batchOf 10 okFailFirst 1
        = (List.range 10).map (fun j => payloadOf (10 * 1 + j + 1)) :=
  ⟨(produce_failure_isolation 10 5 okFailFirst 0 (by decide) (by decide)).1,
    (produce_failure_isolation 10 5 okFailFirst 0 (by decide) (by decide)).2.1⟩

/-- C10: after every loop iteration, whether the send succeeded or failed,
`current_id` equals the batch size times the number of send attempts so far,
and consequently each logical identifier belongs to the batch of at most one
send call: the identifiers of a failed batch are permanently skipped, never
reused. -/
theorem current_id_tracks_attempts (b : Nat) (ok : Nat → Bool) (i : Nat) :
    (pStateBefore b ok i).currentId = b * i ∧
    (∀ i2 x, x ∈ batchIdsOf b ok i → x ∈ batchIdsOf b ok i2 → i2 = i) := by
  refine ⟨pStateBefore_currentId b ok i, ?_⟩
  intro i2 x hx hx2
  rw [batchIdsOf_eq] at hx hx2
  simp only [List.mem_map, List.mem_range] at hx hx2
  obtain ⟨j, hj, hxj⟩ := hx
  obtain ⟨j2, hj2, hxj2⟩ := hx2
  have hb : 0 < b := Nat.pos_of_ne_zero (by omega)
  have heq : b * i + j = b * i2 + j2 := by omega
  have h1 : (b * i + j) / b = i := by
    rw [Nat.mul_add_div hb, Nat.div_eq_of_lt hj]
    omega
  have h2 : (b * i2 + j2) / b = i2 := by
    rw [Nat.mul_add_div hb, Nat.div_eq_of_lt hj2]
    omega
  calc i2 = (b * i2 + j2) / b := h2.symm
    _ = (b * i + j) / b := by rw [heq]
    _ = i := h1

/-- C10 (witness): with `b = 10` and the always-successful oracle,
`current_id` before iteration 3 is 30, and membership of identifier 1 in
batch 0 pins its batch index to 0. -/
theorem current_id_tracks_attempts_witness :
    (pStateBefore 10 (fun _ => true) 3).currentId = 10 * 3 ∧ (0 : Nat) = 0 :=
  ⟨(current_id_tracks_attempts 10 (fun _ => true) 3).1,
    (current_id_tracks_attempts 10 (fun _ => true) 0).2 0 1 (by decide) (by decide)⟩

/-- C2: for every poll in the consumer loop (the example hardcodes
`auto_commit=True`), if the returned sequence is non-empty the cursor
(`offset`) advances by exactly the number of messages returned, and it never
advances on an empty poll result. -/
theorem consume_offset_advance (polls : Nat → PollResult) (i : Nat)
    (ms : List String) (h : polls i = PollResult.ok ms) :
    (ms ≠ [] →
      (cStateBefore polls (i + 1)).offset = (cStateBefore polls i).offset + ms.length) ∧
    (ms = [] →
      (cStateBefore polls (i + 1)).offset = (cStateBefore polls i).offset) := by
  cases ms with
  | nil =>
    refine ⟨fun hne => absurd rfl hne, fun _ => ?_⟩
    simp [cStateBefore, h, consumerIter]
  | cons m t =>
    refine ⟨fun _ => ?_, fun hemp => by simp at hemp⟩
    simp [cStateBefore, h, consumerIter]

/-- C2 (witness): with every poll returning two messages, the cursor before
iteration 1 is the cursor before iteration 0 plus 2; with every poll empty,
it is unchanged. -/
theorem consume_offset_advance_witness :
    (cStateBefore (fun _ => PollResult.ok ["a", "b"]) 1).offset
        = (cStateBefore (fun _ => PollResult.ok ["a", "b"]) 0).offset + 2 ∧
      (cStateBefore (fun _ => PollResult.ok []) 1).offset
        = (cStateBefore (fun _ => PollResult.ok []) 0).offset :=
  ⟨(consume_offset_advance (fun _ => PollResult.ok ["a", "b"]) 0 ["a", "b"] rfl).1
      (by decide),
    (consume_offset_advance (fun _ => PollResult.ok []) 0 [] rfl).2 rfl⟩

/-- C5: if the i-th poll raises an exception and that poll was issued, the
consumer loop terminates immediately: no later poll is ever issued (no
retry), and `n_consumed_batches` keeps the value it had before the failed
poll. -/
theorem poll_error_fatal (polls : Nat → PollResult) (i : Nat)
    (herr : polls i = PollResult.err) (hocc : pollOccurs polls i) :
    (∀ j, i < j → ¬ pollOccurs polls j) ∧
    (cStateBefore polls (i + 1)).nConsumedBatches
      = (cStateBefore polls i).nConsumedBatches := by
  refine ⟨fun j hij hj => hj.2 i hij herr, ?_⟩
  simp [cStateBefore, herr, consumerIter]

/-- C5 (witness): with every poll raising, poll 0 occurs, poll 1 never does,
and the consumed-batch count after the failed poll is still 0. -/
theorem poll_error_fatal_witness :
    ¬ pollOccurs (fun _ => PollResult.err) 1 ∧
      (cStateBefore (fun _ => PollResult.err) 1).nConsumedBatches
        = (cStateBefore (fun _ => PollResult.err) 0).nConsumedBatches :=
  ⟨(poll_error_fatal (fun _ => PollResult.err) 0 rfl (by decide)).1 1 (by decide),
    (poll_error_fatal (fun _ => PollResult.err) 0 rfl (by decide)).2⟩

/-- C7: an empty poll result is not an error: if the i-th poll returns `[]`
and was issued, the state is unchanged (the iteration is not counted toward
`BATCHES_LIMIT`), the loop pauses (the iteration trace contains the sleep)
and continues (the next poll is issued); and in general the i-th poll is
issued exactly when fewer than `BATCHES_LIMIT` non-empty polls have
accumulated and no earlier poll raised. -/
theorem empty_poll_continues (polls : Nat → PollResult) (i : Nat) :
    (polls i = PollResult.ok [] → pollOccurs polls i →
      cStateBefore polls (i + 1) = cStateBefore polls i ∧
      pollOccurs polls (i + 1) ∧
      CEvent.sleep intervalMs ∈ consumerIterEvents (polls i)) ∧
    (pollOccurs polls i ↔
      nonemptyPollCount polls i < BATCHES_LIMIT ∧
        ∀ j, j < i → polls j ≠ PollResult.err) := by
  constructor
  · intro hemp hocc
    have hst : cStateBefore polls (i + 1) = cStateBefore polls i := by
      simp [cStateBefore, hemp, consumerIter]
    refine ⟨hst, ⟨?_, ?_⟩, ?_⟩
    · rw [hst]; exact hocc.1
    · intro j hj
      rcases Nat.lt_or_ge j i with hji | hji
      · exact hocc.2 j hji
      · have : j = i := by omega
        rw [this, hemp]
        intro hcon
        exact PollResult.noConfusion hcon
    · rw [hemp]
      simp [consumerIterEvents]
  · constructor
    · intro hocc
      exact ⟨by rw [← cStateBefore_nConsumed]; exact hocc.1, hocc.2⟩
    · intro hchar
      exact ⟨by rw [cStateBefore_nConsumed]; exact hchar.1, hchar.2⟩

/-- C7 (witness): with every poll empty, poll 0 occurs, the state before
iteration 1 equals the initial state, poll 1 occurs, and the occurrence of
poll 3 is equivalent to its non-empty-count characterisation. -/
theorem empty_poll_continues_witness :
    (cStateBefore (fun _ => PollResult.ok []) 1 = cStateBefore (fun _ => PollResult.ok []) 0 ∧
      pollOccurs (fun _ => PollResult.ok []) 1 ∧
      CEvent.sleep intervalMs ∈ consumerIterEvents ((fun _ => PollResult.ok []) 0)) ∧
    (pollOccurs (fun _ => PollResult.ok []) 3 ↔
      nonemptyPollCount (fun _ => PollResult.ok []) 3 < BATCHES_LIMIT ∧
        ∀ j, j < 3 → (fun _ => PollResult.ok []) j ≠ PollResult.err) :=
  ⟨(empty_poll_continues (fun _ => PollResult.ok []) 0).1 rfl (by decide),
    (empty_poll_continues (fun _ => PollResult.ok []) 3).2⟩

/-- C3 (counterexample): the claim that a topology error stops
`produce_messages` from starting fails on the code: both blocks of
`init_system` catch and log every exception without re-raising, so `main`
always proceeds to `produce_messages`.  Concretely, in the environment
`envStreamRaise` where `get_stream` raises, the error is logged and the
producer loop still starts. -/
theorem topology_error_still_produces_cex :
    ¬ (∀ e : InitEnv,
        (init_system e).streamErrorLogged = true → ¬ produceStarts e) :=
  fun h => h envStreamRaise (by decide) (by decide)

/-- C3 (amended): a transport or broker-side error in the stream or topic
provisioning block of `init_system` is caught and logged, but it is swallowed
there: `init_system` returns normally and `produce_messages` starts in every
environment. -/
theorem init_system_swallows_errors (e : InitEnv) :
    (e.getStreamResult = Lookup.raised → (init_system e).streamErrorLogged = true) ∧
    (e.getTopicResult = Lookup.raised → (init_system e).topicErrorLogged = true) ∧
    produceStarts e := by
  refine ⟨?_, ?_, ?_⟩
  · intro h
    simp [init_system, streamBlockBody, h, caughtAndLogged]
  · intro h
    simp [init_system, topicBlockBody, h, caughtAndLogged]
  · simp [produceStarts, mainPhases]

/-- C3 (witness): in `envStreamRaise` the stream error is logged and the
producer loop still starts. -/
theorem init_system_swallows_errors_witness :
    (init_system envStreamRaise).streamErrorLogged = true ∧ produceStarts envStreamRaise :=
  ⟨(init_system_swallows_errors envStreamRaise).1 rfl,
    (init_system_swallows_errors envStreamRaise).2.2⟩

/-- C6: `ensureStream` (the stream block of `init_system`, run against the
spec's broker registry) is idempotent: starting from a registry in which the
name is absent, the first call creates the stream, the second call finds it,
performs no create (the registry is left untouched), completes without error
and reports that it already exists; the stream is registered under the given
id. -/
theorem ensure_stream_idempotent (reg : List (String × Nat)) (name : String)
    (id : Nat) (habs : getStream reg name = none) :
    (ensure_stream reg name id).2 = EnsureOutcome.created ∧
    (ensure_stream (ensure_stream reg name id).1 name id).2
      = EnsureOutcome.alreadyExists ∧
    (ensure_stream (ensure_stream reg name id).1 name id).1
      = (ensure_stream reg name id).1 ∧
    getStream (ensure_stream reg name id).1 name = some id := by
  have h1 : ensure_stream reg name id
      = (createStream reg name id, EnsureOutcome.created) := by
    simp [ensure_stream, habs]
  have h2 : getStream (createStream reg name id) name = some id :=
    getStream_append_self reg name id habs
  refine ⟨by rw [h1], ?_, ?_, by rw [h1]; exact h2⟩
  · rw [h1]
    simp [ensure_stream, h2]
  · rw [h1]
    simp [ensure_stream, h2]

/-- C6 (witness): starting from the empty registry with the code's
`STREAM_NAME` and `STREAM_ID`, the first call creates and the second call
reports "already exists" leaving the registry untouched. -/
theorem ensure_stream_idempotent_witness :
    (ensure_stream [] STREAM_NAME STREAM_ID).2 = EnsureOutcome.created ∧
      (ensure_stream (ensure_stream [] STREAM_NAME STREAM_ID).1 STREAM_NAME STREAM_ID).2
        = EnsureOutcome.alreadyExists ∧
      (ensure_stream (ensure_stream [] STREAM_NAME STREAM_ID).1 STREAM_NAME STREAM_ID).1
        = (ensure_stream [] STREAM_NAME STREAM_ID).1 :=
  ⟨(ensure_stream_idempotent [] STREAM_NAME STREAM_ID rfl).1,
    (ensure_stream_idempotent [] STREAM_NAME STREAM_ID rfl).2.1,
    (ensure_stream_idempotent [] STREAM_NAME STREAM_ID rfl).2.2.1⟩

/-- C8: ordering within a batch is preserved end to end.  The producer's
i-th send call hands the whole constructed batch to the broker in one call;
appended to the spec's partition log and polled back starting at the
pre-send end of the log with a count at least the batch size, the poll
returns exactly that batch in the same relative order, and the consumer
handles every polled message in the order of the returned sequence. -/
theorem batch_order_preserved (log : List String) (b : Nat) (ok : Nat → Bool)
    (i count : Nat) (hcount : b ≤ count) :
    pollFromPartition (sendToPartition log (batchOf b ok i)) log.length count
      = batchOf b ok i ∧
    handledPayloads (consumerIterEvents (PollResult.ok
        (pollFromPartition (sendToPartition log (batchOf b ok i)) log.length count)))
      = batchOf b ok i := by
  have hlen : (batchOf b ok i).length = b := by
    simp [batchOf, buildBatch_length]
  have hpoll : pollFromPartition (sendToPartition log (batchOf b ok i)) log.length count
      = batchOf b ok i := by
    simp only [pollFromPartition, sendToPartition, List.drop_left]
    exact List.take_of_length_le (by omega)
  exact ⟨hpoll, by rw [hpoll, handledPayloads_ok]⟩

/-- C8 (witness): with the code's batch size 10 and poll count 10, batch 0
appended to a one-message partition log and polled back from offset 1 is
observed and handled exactly in its send order. -/
theorem batch_order_preserved_witness :
    pollFromPartition
        (sendToPartition ["old"] (batchOf 10 (fun _ => true) 0))
        (List.length ["old"]) 10
      = batchOf 10 (fun _ => true) 0 ∧
    handledPayloads (consumerIterEvents (PollResult.ok
        (pollFromPartition
          (sendToPartition ["old"] (batchOf 10 (fun _ => true) 0))
          (List.length ["old"]) 10)))
      = batchOf 10 (fun _ => true) 0 :=
  batch_order_preserved ["old"] 10 (fun _ => true) 0 10 (by decide)

/-- C9 (counterexample): the claim that the pacing pause runs after every
loop iteration of both loops regardless of outcome fails on the consumer:
an iteration whose poll raises breaks out of the loop immediately, without
sleeping — its event trace contains no sleep (and such an iteration does
occur, e.g. the first one when every poll raises). -/
theorem pacing_uniform_cex :
    pollOccurs (fun _ => PollResult.err) 0 ∧
      ¬ (∀ r : PollResult, CEvent.sleep intervalMs ∈ consumerIterEvents r) :=
  ⟨by decide, fun h => absurd (h PollResult.err) (by decide)⟩

/-- C9 (amended): the pacing pause runs after every producer iteration
regardless of whether the send succeeded or failed, and after every consumer
iteration whose poll did not raise (success or empty); a raising poll exits
the loop without pausing, so between any two consecutively issued polls there
is still always a pause. -/
theorem pacing_between_requests :
    (∀ (b : Nat) (s : PState), PEvent.sleep intervalMs ∈ producerIterEvents b s) ∧
    (∀ r : PollResult, r ≠ PollResult.err →
      CEvent.sleep intervalMs ∈ consumerIterEvents r) ∧
    (∀ (polls : Nat → PollResult) (i : Nat), pollOccurs polls (i + 1) →
      CEvent.sleep intervalMs ∈ consumerIterEvents (polls i)) := by
  have hok : ∀ r : PollResult, r ≠ PollResult.err →
      CEvent.sleep intervalMs ∈ consumerIterEvents r := by
    intro r hr
    cases r with
    | err => exact absurd rfl hr
    | ok ms => rw [consumerIterEvents_ok]; simp
  refine ⟨?_, hok, ?_⟩
  · intro b s
    simp [producerIterEvents]
  · intro polls i hocc
    exact hok (polls i) (hocc.2 i (Nat.lt_succ_self i))

/-- C9 (amended, witness): every producer iteration from the initial state
with batch size 10 pauses; a consumer iteration with an empty poll pauses;
and with every poll empty, a pause separates polls 0 and 1. -/
theorem pacing_between_requests_witness :
    PEvent.sleep intervalMs ∈ producerIterEvents 10 pInit ∧
      CEvent.sleep intervalMs ∈ consumerIterEvents (PollResult.ok []) ∧
      CEvent.sleep intervalMs ∈ consumerIterEvents ((fun _ => PollResult.ok []) 0) :=
  ⟨pacing_between_requests.1 10 pInit,
    pacing_between_requests.2.1 (PollResult.ok []) (by decide),
    pacing_between_requests.2.2 (fun _ => PollResult.ok []) 0 (by decide)⟩
